import Mathlib

/-!
Verification of the collection-resolution and reconciliation engine of the
jellyfin-tmdb-auto-collections repository, against its natural-language
specification.

The Python sources are shallowly embedded: dictionaries become ordered
association lists (Python dicts preserve insertion order), sets become lists
or `Finset`s, fallible/With-I/O operations are parameterized by pure oracle
functions describing the responses of the external services, and the
thread-pool fan-outs are modelled by one fixed linearization of the
completion order (the accumulations in the source are keyed by id, so the
properties proved here do not depend on that order).
-/

namespace AutoCollections

/-! ## Python primitives -/

/-- State-machine check that a character list is a valid Python integer-digit
run: nonempty, starts and ends with a digit, underscores only singly and
between digits (`int("1_0")` is legal, `int("_1")`, `int("1__0")`,
`int("1_")` are not). `prevDigit` records whether the previous character was
a digit. -/
def pyDigitRun (prevDigit : Bool) : List Char → Bool
  | [] => prevDigit
  | c :: rest =>
    if c.isDigit then pyDigitRun true rest
    else if c = '_' then prevDigit && pyDigitRun false rest
    else false

/-- Numeric value of a digit run, ignoring underscores. -/
def digitsValue (cs : List Char) : Nat :=
  cs.foldl (fun a c => if c.isDigit then a * 10 + (c.toNat - 48) else a) 0

/-- Leading/trailing-whitespace strip of a character list (Python
`str.strip()`; ASCII whitespace — Python also strips a few rarer Unicode
spaces, irrelevant here). -/
def pyStrip (cs : List Char) : List Char :=
  ((cs.dropWhile Char.isWhitespace).reverse.dropWhile Char.isWhitespace).reverse

/-- Embedding of Python `int(s)` for a string argument: strip surrounding
whitespace, allow one optional sign, then a digit run; any other shape
raises `ValueError`, modelled as `none`. -/
def pyInt (s : String) : Option Int :=
  match pyStrip s.toList with
  | '+' :: rest => if pyDigitRun false rest then some (digitsValue rest) else none
  | '-' :: rest => if pyDigitRun false rest then some (-(digitsValue rest : Int)) else none
  | rest => if pyDigitRun false rest then some (digitsValue rest) else none

/-- Python truthiness of an optional string: `None` and `""` are falsy. -/
def strTruthy : Option String → Bool
  | none => false
  | some s => s ≠ ""

/-! ## Association lists (Python dict embedding)

A Python `dict` is an insertion-ordered map; we embed it as a `List (κ × ν)`
whose keys are pairwise distinct by construction in all the builders below.
-/

/-- `d.get(k)`: first binding of `k`, if any. -/
def alookup {κ ν : Type} [DecidableEq κ] (l : List (κ × ν)) (k : κ) : Option ν :=
  match l.find? (fun kv => kv.1 = k) with
  | some kv => some kv.2
  | none => none

/-- `d[k] = f(d.get(k))`: replace the binding in place when the key is
present, append it otherwise — Python dict update semantics. -/
def aupdate {κ ν : Type} [DecidableEq κ] (l : List (κ × ν)) (k : κ)
    (f : Option ν → ν) : List (κ × ν) :=
  match l with
  | [] => [(k, f none)]
  | kv :: rest =>
    if kv.1 = k then (k, f (some kv.2)) :: rest
    else kv :: aupdate rest k f

/-! ## Identity mapper (`get_tmdb_id`, `build_tmdb_mapping`) -/

/-- A movie item as returned by the media server: `Id`, `Name`, and the
`ProviderIds` dictionary of provider-identifier strings. -/
structure JFMovie where
  jfId : String
  name : String
  providerIds : List (String × String)
  deriving Repr, DecidableEq

/-- `get_tmdb_id`: read `ProviderIds["Tmdb"] or ProviderIds["tmdb"]`
(Python `or` falls through on a falsy — absent or empty — first operand),
return `None` when the raw value is falsy, else Python `int` coercion with
failures mapped to `None`. -/
def get_tmdb_id (item : JFMovie) : Option Int :=
  let rawTmdb := alookup item.providerIds "Tmdb"
  let raw := if strTruthy rawTmdb then rawTmdb else alookup item.providerIds "tmdb"
  if strTruthy raw then pyInt (raw.getD "") else none

/-- `build_tmdb_mapping`: fold the movie list into `tmdbId → [jellyfinId]`,
appending each item's local id to its external id's bucket. `if not tmdb_id`
skips both a missing id and the falsy integer `0`. -/
def build_tmdb_mapping (movies : List JFMovie) : List (Int × List String) :=
  movies.foldl
    (fun mapping m =>
      match get_tmdb_id m with
      | none => mapping
      | some t =>
        if t = 0 then mapping
        else aupdate mapping t (fun o => o.getD [] ++ [m.jfId]))
    []

/-! ## Collection descriptors and the offline resolver -/

/-- A `{id, title}` movie record of a collection's member list. -/
structure MovieRef where
  id : Int
  title : String
  deriving Repr, DecidableEq

/-- One entry of `metadata/collections.json` after `load_offline_collections`
normalization: display name plus member movie list. -/
structure OfflineEntry where
  name : String
  movies : List MovieRef
  deriving Repr, DecidableEq

/-- The value stored in the result map of both collection builders. The
source keeps these as dictionaries with keys `name`, `ids`,
`tmdb_collection_id`, `all_tmdb_ids`, `missing_tmdb_ids`, `missing_movies`.
`tmdb_collection_id` is `int(cid)` in the source, which raises on a
non-numeric key; that raising case is `none` here. -/
structure CollectionDescriptor where
  name : String
  ids : List String
  tmdb_collection_id : Option Int
  all_tmdb_ids : List Int
  missing_tmdb_ids : List Int
  missing_movies : List MovieRef
  deriving Repr, DecidableEq

/-- `MIN_MOVIES`: minimum number of locally present copies for a collection
to be materialized. -/
def MIN_MOVIES : Nat := 2

/-- The inner matching loop of `build_collections_offline`: partition a
collection's members into local matches (each match contributes all of its
Jellyfin ids, via `matched_ids.extend`) and missing movies. -/
def matchMembers (tmdb_to_jf : List (Int × List String)) (ms : List MovieRef) :
    List String × List MovieRef :=
  ms.foldl
    (fun acc m =>
      match alookup tmdb_to_jf m.id with
      | some js => (acc.1 ++ js, acc.2)
      | none => (acc.1, acc.2 ++ [m]))
    ([], [])

/-- `build_collections_offline`: for each snapshot collection, match members
against the identity map and emit a descriptor when at least `MIN_MOVIES`
local copies matched. The snapshot (`load_offline_collections()`, a file
read) is passed in as `meta`. -/
def build_collections_offline (meta : List (String × OfflineEntry))
    (tmdb_to_jf : List (Int × List String)) :
    List (String × CollectionDescriptor) :=
  meta.foldl
    (fun result entry =>
      let cid := entry.1
      let all_movies := entry.2.movies
      let mm := matchMembers tmdb_to_jf all_movies
      if mm.1.length ≥ MIN_MOVIES then
        result ++ [(cid,
          { name := entry.2.name
            ids := mm.1
            tmdb_collection_id := pyInt cid
            all_tmdb_ids := all_movies.map MovieRef.id
            missing_tmdb_ids := mm.2.map MovieRef.id
            missing_movies := mm.2 })]
      else result)
    []

/-! ## Online resolver (`build_collections_online`)

The TMDb fetches are modelled by oracle functions giving, per id, the value
`tmdb.get` returns (already in the `_filter_movie` / `_filter_collection`
normalized shape). A worker exception and a `None` result lead to the same
`continue` in the movie phase and are both `none` there; in the collection
phase an exception skips the entry while a falsy result proceeds with
`parts = {}`, so the two are distinguished.
-/

/-- Python truthiness of an optional integer: `None` and `0` are falsy. -/
def intTruthy : Option Int → Bool
  | none => false
  | some n => n ≠ 0

/-- `a or b` for optional strings under Python truthiness. -/
def pyOrStr (a b : Option String) : Option String :=
  if strTruthy a then a else b

/-- The `belongs_to_collection` sub-object of a normalized movie payload. -/
structure BTCRef where
  id : Option Int
  name : Option String
  deriving Repr, DecidableEq

/-- A movie payload in the `_filter_movie` normalized shape. -/
structure TmdbMovie where
  id : Option Int
  title : Option String
  release_date : Option String
  status : Option String
  belongs_to_collection : Option BTCRef
  poster_path : Option String
  deriving Repr, DecidableEq

/-- One member record of a collection payload as read by the resolver
(`i.get("id")`, `i.get("title")`, `i.get("original_title")`). Records
written by `_filter_collection` carry `id`, `title`, `release_date` and no
`original_title`. -/
structure PartRef where
  id : Option Int
  title : Option String
  original_title : Option String
  release_date : Option String
  deriving Repr, DecidableEq

/-- A collection payload in the `_filter_collection` normalized shape. -/
structure TmdbCollection where
  id : Option Int
  name : Option String
  poster_path : Option String
  parts : List PartRef
  deriving Repr, DecidableEq

/-- Outcome of a pooled fetch: the worker raised, or returned a value
(possibly `None`). -/
inductive FetchOutcome (α : Type) where
  | exn
  | val (d : Option α)
  deriving Repr, DecidableEq

/-- The job list of `build_collections_online`: `(tmdb_id, jf_id, name)` for
every movie with a truthy external id. -/
def onlineJobs (movies : List JFMovie) : List (Int × String × String) :=
  movies.foldl
    (fun js m =>
      match get_tmdb_id m with
      | none => js
      | some t => if t = 0 then js else js ++ [(t, m.jfId, m.name)])
    []

/-- Accumulator value of the first online phase: collection display name and
the Jellyfin ids of local movies declaring membership. -/
structure ColAccum where
  name : String
  ids : List String
  deriving Repr, DecidableEq

/-- First phase of `build_collections_online`: fetch each job's movie record
and accumulate `cid → (name, [jf_id])`, skipping fetch failures, absent
results, and absent/falsy `belongs_to_collection` ids. `setdefault` keeps
the first-seen name; ids are appended. The pool's completion order is
modelled as the submission order (the accumulation is keyed by `cid`). -/
def onlinePhase1 (movieFetch : Int → Option TmdbMovie)
    (jobs : List (Int × String × String)) : List (String × ColAccum) :=
  jobs.foldl
    (fun mapping job =>
      match movieFetch job.1 with
      | none => mapping
      | some info =>
        match info.belongs_to_collection with
        | none => mapping
        | some col =>
          if intTruthy col.id then
            aupdate mapping (toString (col.id.getD 0))
              (fun o =>
                match o with
                | none => { name := (col.name).getD "", ids := [job.2.1] }
                | some a => { a with ids := a.ids ++ [job.2.1] })
          else mapping)
    []

/-- `i.get("title") or i.get("original_title") or ""` for a member record. -/
def partTitle (i : PartRef) : String :=
  (pyOrStr i.title i.original_title).getD ""

/-- Second phase of `build_collections_online`: fetch each accumulated
collection's canonical record; a worker exception skips the entry, a falsy
result proceeds with an empty member list. Canonical members with falsy ids
are dropped; `matched` is the set of canonical ids present in the identity
map; a descriptor is emitted when the accumulated local ids reach
`MIN_MOVIES`. -/
def onlinePhase2 (tmdb_to_jf : List (Int × List String))
    (collectionFetch : String → FetchOutcome TmdbCollection)
    (mapping : List (String × ColAccum)) :
    List (String × CollectionDescriptor) :=
  mapping.foldl
    (fun result entry =>
      let cid := entry.1
      match collectionFetch cid with
      | .exn => result
      | .val dopt =>
        let items := (dopt.map TmdbCollection.parts).getD []
        let all_tmdb := items.filterMap
          (fun i => if intTruthy i.id then some (i.id.getD 0) else none)
        let all_movies : List MovieRef := items.filterMap
          (fun i =>
            if intTruthy i.id then some ⟨i.id.getD 0, partTitle i⟩ else none)
        let matched := all_tmdb.filter (fun mid => (alookup tmdb_to_jf mid).isSome)
        if entry.2.ids.length ≥ MIN_MOVIES then
          result ++ [(cid,
            { name := entry.2.name
              ids := entry.2.ids
              tmdb_collection_id := pyInt cid
              all_tmdb_ids := all_tmdb
              missing_tmdb_ids := all_tmdb.filter (fun mid => decide (mid ∉ matched))
              missing_movies := all_movies.filter (fun m => decide (m.id ∉ matched)) })]
        else result)
    []

/-- `build_collections_online`: job construction, movie-membership phase,
then canonical-collection phase. -/
def build_collections_online (movies : List JFMovie)
    (tmdb_to_jf : List (Int × List String))
    (movieFetch : Int → Option TmdbMovie)
    (collectionFetch : String → FetchOutcome TmdbCollection) :
    List (String × CollectionDescriptor) :=
  onlinePhase2 tmdb_to_jf collectionFetch (onlinePhase1 movieFetch (onlineJobs movies))

/-! ## Concrete inputs used to instantiate the theorems below -/

/-- A snapshot with one two-member collection, both members local. -/
def sampleMeta : List (String × OfflineEntry) :=
  [("1", ⟨"Col", [⟨5, "A"⟩, ⟨6, "B"⟩]⟩)]

/-- Identity map for `sampleMeta`: each member present once. -/
def sampleMap : List (Int × List String) :=
  [(5, ["jfa"]), (6, ["jfb"])]

/-- The descriptor `build_collections_offline sampleMeta sampleMap` emits. -/
def sampleDesc : CollectionDescriptor :=
  ⟨"Col", ["jfa", "jfb"], some 1, [5, 6], [], []⟩

/-- A library with two local copies of the same external title 1. -/
def dupMovies : List JFMovie :=
  [⟨"j1", "M", [("Tmdb", "1")]⟩, ⟨"j2", "M", [("Tmdb", "1")]⟩]

/-- Snapshot in which collection 9 has the single canonical member 1. -/
def dupMeta : List (String × OfflineEntry) :=
  [("9", ⟨"Dup", [⟨1, "M"⟩]⟩)]

/-- Movie oracle: title 1 belongs to collection 9. -/
def dupMovieFetch : Int → Option TmdbMovie := fun t =>
  if t = 1 then some ⟨some 1, some "M", none, none, some ⟨some 9, some "Dup"⟩, none⟩
  else none

/-- Collection oracle: collection 9 has the single canonical member 1. -/
def dupCollFetch : String → FetchOutcome TmdbCollection := fun c =>
  if c = "9" then
    .val (some ⟨some 9, some "Dup", none, [⟨some 1, some "M", none, none⟩]⟩)
  else .exn

/-- The descriptor both resolvers emit for the duplicate-copies library. -/
def dupDesc : CollectionDescriptor :=
  ⟨"Dup", ["j1", "j2"], some 9, [1], [], []⟩

/-! ## Metadata connector request loop (`TMDb._request`)

The HTTP layer is modelled by a response oracle `Nat → TmdbResp α` giving
the provider's answer on each attempt number.
-/

/-- The provider's answer to one attempt: success with a JSON body, HTTP
429 with an optional `Retry-After` header string, HTTP 401, another
non-success status (so `raise_for_status` raises), or a network/timeout/JSON
exception. -/
inductive TmdbResp (α : Type) where
  | ok (d : α)
  | code429 (retryAfter : Option String)
  | code401
  | httpError
  | netExc
  deriving Repr, DecidableEq

/-- What one iteration of the attempt loop does before the `except` handler
is consulted: return data, sleep the 429 delay and continue, or raise. -/
inductive AttemptStep (α : Type) where
  | done (d : α)
  | retryAfterSleep (secs : Int)
  | raised (msg : String)
  deriving Repr, DecidableEq

/-- The body of one attempt of `TMDb._request`, up to the `except` handler:
on 429, `int(r.headers.get("Retry-After", "3"))` then sleep-and-continue
(a malformed header makes `int` raise inside the `try`); on 401 the code
raises `RuntimeError("TMDb API key invalid")`; any other non-success status
raises out of `raise_for_status`. -/
def attemptBody {α : Type} (r : TmdbResp α) : AttemptStep α :=
  match r with
  | .ok d => .done d
  | .code429 h =>
    match pyInt (h.getD "3") with
    | some n => .retryAfterSleep n
    | none => .raised "invalid Retry-After header"
  | .code401 => .raised "TMDb API key invalid"
  | .httpError => .raised "HTTPError"
  | .netExc => .raised "request exception"

/-- The seconds slept after a 429 answer: the parsed `Retry-After` header,
defaulting to 3; 1 when the header fails to parse (the generic handler's
`time.sleep(1)`). -/
def retrySleep (h : Option String) : Int :=
  match pyInt (h.getD "3") with
  | some n => n
  | none => 1

/-- The attempt loop of `TMDb._request` over the remaining attempt numbers,
accumulating the sleeps performed. Every `raise` inside the loop body —
including the 401 `RuntimeError` — is caught by the `except Exception`
handler, which logs, sleeps 1, and proceeds to the next attempt; after the
last attempt the routine returns `None`. -/
def tmdbRequestLoop {α : Type} (resp : Nat → TmdbResp α) :
    List Nat → List Int → Option α × List Int
  | [], sleeps => (none, sleeps)
  | a :: rest, sleeps =>
    match attemptBody (resp a) with
    | .done d => (some d, sleeps)
    | .retryAfterSleep n => tmdbRequestLoop resp rest (sleeps ++ [n])
    | .raised _ => tmdbRequestLoop resp rest (sleeps ++ [1])

/-- `TMDb._request`: immediate `None` in offline mode, otherwise the
3-attempt loop (`for attempt in range(1, attempts + 1)` with
`attempts = 3`). Returns the result together with the sleeps performed. -/
def tmdbRequest {α : Type} (offline : Bool) (resp : Nat → TmdbResp α) :
    Option α × List Int :=
  if offline then (none, [])
  else tmdbRequestLoop resp [1, 2, 3] []

/-! ## Metadata cache (`utils/cache.py`, `JsonCache`)

The persisted document has the two partitions `movie` and `collection`,
each an insertion-ordered map from stringified numeric id to a payload;
`save()` is file I/O and drops out of the embedding.
-/

/-- The in-memory `JsonCache.data`, generic in the payload types of the two
partitions. -/
structure Cache (μ γ : Type) where
  movie : List (String × μ)
  collection : List (String × γ)
  deriving Repr, DecidableEq

/-- `get_movie`: lookup in the `movie` partition (callers pass the key
already stringified). -/
def Cache.getMovie {μ γ : Type} (c : Cache μ γ) (k : String) : Option μ :=
  alookup c.movie k

/-- `set_movie`: overwrite-or-append in the `movie` partition. -/
def Cache.setMovie {μ γ : Type} (c : Cache μ γ) (k : String) (v : μ) :
    Cache μ γ :=
  { c with movie := aupdate c.movie k (fun _ => v) }

/-- `get_collection`: lookup in the `collection` partition. -/
def Cache.getCollection {μ γ : Type} (c : Cache μ γ) (k : String) : Option γ :=
  alookup c.collection k

/-- `set_collection`: overwrite-or-append in the `collection` partition. -/
def Cache.setCollection {μ γ : Type} (c : Cache μ γ) (k : String) (v : γ) :
    Cache μ γ :=
  { c with collection := aupdate c.collection k (fun _ => v) }

/-- `prune_movies(valid_ids)`: stringify the valid ids, then drop every
`movie` entry whose key is not among them. The source computes
`to_remove = current - valid` and pops those keys (returning early when
empty); popping never reorders the remaining entries, so the result is this
filter. -/
def Cache.pruneMovies {μ γ : Type} (c : Cache μ γ) (valid_ids : List Int) :
    Cache μ γ :=
  let valid := valid_ids.map toString
  { c with movie := c.movie.filter (fun kv => decide (kv.1 ∈ valid)) }

/-! ## Metadata connector fetch path (`TMDb.get`)

`get` dispatches on the request path: movie paths and collection paths are
cached-through (cache lookup first; on a miss, `_request`, normalize,
write-back), any other path goes straight to `_request`. The raw provider
payloads are modelled by structures carrying exactly the fields the
normalizers read.
-/

/-- Raw provider movie payload: the fields `_filter_movie` reads. -/
structure RawMovie where
  id : Option Int
  title : Option String
  original_title : Option String
  release_date : Option String
  status : Option String
  belongs_to_collection : Option BTCRef
  poster_path : Option String
  deriving Repr, DecidableEq

/-- Raw member record of a provider collection payload. -/
structure RawPart where
  id : Option Int
  title : Option String
  original_title : Option String
  release_date : Option String
  deriving Repr, DecidableEq

/-- Raw provider collection payload: the fields `_filter_collection`
reads. -/
structure RawCollection where
  id : Option Int
  name : Option String
  poster_path : Option String
  parts : List RawPart
  deriving Repr, DecidableEq

/-- `_filter_movie`: normalize a raw movie payload
(`title or original_title`, the rest copied). -/
def filter_movie (d : RawMovie) : TmdbMovie :=
  { id := d.id
    title := pyOrStr d.title d.original_title
    release_date := d.release_date
    status := d.status
    belongs_to_collection := d.belongs_to_collection
    poster_path := d.poster_path }

/-- `_filter_collection`: keep members with truthy ids, normalized to
`{id, title, release_date}` (so the written record has no
`original_title`). -/
def filter_collection (d : RawCollection) : TmdbCollection :=
  { id := d.id
    name := d.name
    poster_path := d.poster_path
    parts := d.parts.filterMap (fun i =>
      if intTruthy i.id then
        some { id := i.id
               title := pyOrStr i.title i.original_title
               original_title := none
               release_date := i.release_date }
      else none) }

/-- `path.startswith(p)`. -/
def strStartsWith (s p : String) : Bool :=
  p.toList.isPrefixOf s.toList

/-- `path.split("/")[-1]`: the suffix after the last slash. -/
def lastSlashSeg (s : String) : String :=
  ⟨s.toList.foldl (fun acc c => if c = '/' then [] else acc ++ [c]) []⟩

/-- The value `TMDb.get` returns: a normalized movie, a normalized
collection, or — for any other path — the raw `_request` body of
caller-chosen shape `ω`. -/
inductive GetResult (ω : Type) where
  | movie (m : TmdbMovie)
  | collection (c : TmdbCollection)
  | other (d : ω)
  deriving Repr, DecidableEq

/-- Cache instantiated at the payload shapes the connector itself writes. -/
abbrev TmdbCache := Cache TmdbMovie TmdbCollection

/-- `TMDb.get`: cache-through fetch. On a movie path, consult the movie
partition under the path's id segment; on a miss, `_request` (whose falsy
result — `None` body — returns absent), normalize, write back. Collection
paths analogously against the collection partition. Any other path is an
uncached `_request`. Returns the result and the possibly-updated cache. -/
def tmdbGet {ω : Type} (offline : Bool) (cache : TmdbCache)
    (movieResp : Nat → TmdbResp RawMovie)
    (collResp : Nat → TmdbResp RawCollection)
    (otherResp : Nat → TmdbResp ω) (path : String) :
    Option (GetResult ω) × TmdbCache :=
  if strStartsWith path "/movie/" then
    let key := lastSlashSeg path
    match cache.getMovie key with
    | some c => (some (.movie c), cache)
    | none =>
      match (tmdbRequest offline movieResp).1 with
      | none => (none, cache)
      | some raw =>
        let f := filter_movie raw
        (some (.movie f), cache.setMovie key f)
  else if strStartsWith path "/collection/" then
    let key := lastSlashSeg path
    match cache.getCollection key with
    | some c => (some (.collection c), cache)
    | none =>
      match (tmdbRequest offline collResp).1 with
      | none => (none, cache)
      | some raw =>
        let f := filter_collection raw
        (some (.collection f), cache.setCollection key f)
  else
    ((tmdbRequest offline otherResp).1.map .other, cache)

/-- A one-entry movie cache used to instantiate the offline-mode
theorems. -/
def oneMovieCache : TmdbCache :=
  { movie := [("5", ⟨some 5, some "T", none, none, none, none⟩)]
    collection := [] }

/-! ## Missing-item classification (`process_missing`, lines 469–498) -/

/-- The five outcomes of classifying a missing item with resolved
metadata. -/
inductive MissingClass where
  | noReleaseDate
  | invalidReleaseDate
  | unreleasedFuture
  | rumoredPlanned
  | eligible
  deriving Repr, DecidableEq

/-- The classification chain of `process_missing` applied to the metadata
extracted by `CachedMovie.from_tmdb` (which reads `release_date` and
`status` unchanged from the payload): `if not release_date` (absent or
empty string) → no release date; `int(str(release_date)[:4])` raising →
invalid; parsed year beyond the current year → unreleased; status
`"Rumored"` or `"Planned"` → rumored/planned; otherwise the item is
eligible for a request. -/
def classifyMissing (release_date status : Option String)
    (currentYear : Int) : MissingClass :=
  if !(strTruthy release_date) then .noReleaseDate
  else
    match pyInt ⟨(release_date.getD "").toList.take 4⟩ with
    | none => .invalidReleaseDate
    | some y =>
      if y > currentYear then .unreleasedFuture
      else if status = some "Rumored" ∨ status = some "Planned" then
        .rumoredPlanned
      else .eligible

/-! ## Missing-item reconciler (`process_missing`)

The connectors are modelled by pure oracles; every externally visible call
(metadata fetch attempts, the already-requested check, the request
submission, and the would-request/sent log records of
`display.log_missing_request`) is recorded in an event trace. The
`jellyseer` client is non-`None` on this code path — `process_missing`
returns `(0, {}, 0)` up front otherwise, and `main` only calls it with the
client configured. -/

/-- The `skipped_stats` dictionary, one counter per skip-reason label. -/
structure SkipStats where
  noMetadata : Nat
  noReleaseDate : Nat
  invalidReleaseDate : Nat
  unreleasedFuture : Nat
  rumoredPlanned : Nat
  deriving Repr, DecidableEq

/-- All five counters start at 0 each run. -/
def SkipStats.init : SkipStats := ⟨0, 0, 0, 0, 0⟩

/-- Externally visible calls made while reconciling missing items. -/
inductive PMEvent where
  | tmdbApiFetch (tmdbId : Int)
  | fallbackFetch (tmdbId : Int)
  | logMissingRequest (title : String) (tmdbId : Int) (collection : String)
  | checkRequested (tmdbId : Int)
  | requestMovie (tmdbId : Int)
  deriving Repr, DecidableEq

/-- The reconciler's environment: configuration flags plus response oracles
for the metadata and request connectors. `jsRequested` is the truthiness of
`is_movie_requested` (connector errors there yield `None`, hence `false`);
`jsRequestOk` tells whether `request_movie` succeeds or raises. -/
structure MissingEnv where
  apiKeyTruthy : Bool
  offline : Bool
  currentYear : Int
  tmdbFetch : Int → Option TmdbMovie
  jsFallback : Int → Option TmdbMovie
  jsRequested : Int → Bool
  jsRequestOk : Int → Bool

/-- Running state of `process_missing`: the three returned values, the
metadata cache, and the event trace. -/
structure PMState where
  count : Nat
  skipped : SkipStats
  totalMissing : Nat
  cache : TmdbCache
  events : List PMEvent
  deriving DecidableEq

/-- The TMDb attempt of the resolution chain: only with a truthy API key
and not offline (`if not details_raw and tmdb.api_key and not
tmdb.offline_mode`); a successful payload is written back to the cache; a
fetch returning absent or raising leaves the chain going. -/
def apiAttempt (env : MissingEnv) (m : MovieRef) (st : PMState) :
    Option TmdbMovie × PMState :=
  if env.apiKeyTruthy && !env.offline then
    let st1 := { st with events := st.events ++ [.tmdbApiFetch m.id] }
    match env.tmdbFetch m.id with
    | some d =>
      (some d, { st1 with cache := st1.cache.setMovie (toString m.id) d })
    | none => (none, st1)
  else (none, st)

/-- The Jellyseerr-fallback attempt of the resolution chain
(`fallback_tmdb_movie`, which catches its own errors); a successful
normalized payload is written back to the cache. -/
def fallbackAttempt (env : MissingEnv) (m : MovieRef) (st : PMState) :
    Option TmdbMovie × PMState :=
  let st1 := { st with events := st.events ++ [.fallbackFetch m.id] }
  match env.jsFallback m.id with
  | some d =>
    (some d, { st1 with cache := st1.cache.setMovie (toString m.id) d })
  | none => (none, st1)

/-- Metadata resolution chain for one missing item: cache, then the TMDb
API, then the Jellyseerr fallback. -/
def resolveDetails (env : MissingEnv) (m : MovieRef) (st : PMState) :
    Option TmdbMovie × PMState :=
  match st.cache.getMovie (toString m.id) with
  | some d => (some d, st)
  | none =>
    match apiAttempt env m st with
    | (some d, st2) => (some d, st2)
    | (none, st2) => fallbackAttempt env m st2

/-- The body of the inner loop of `process_missing` for one missing item
of collection `cname`: count it, resolve metadata, classify, and either
bump the matching skip counter or — when eligible — record a would-request
in dry-run mode, or check/submit a real request otherwise (a submission
failure logs a warning and neither records nor counts). -/
def processMissingMovie (env : MissingEnv) (dry_run : Bool) (cname : String)
    (m : MovieRef) (st0 : PMState) : PMState :=
  match resolveDetails env m { st0 with totalMissing := st0.totalMissing + 1 } with
  | (none, st) =>
    { st with skipped := { st.skipped with noMetadata := st.skipped.noMetadata + 1 } }
  | (some d, st) =>
    match classifyMissing d.release_date d.status env.currentYear with
    | .noReleaseDate =>
      { st with skipped :=
          { st.skipped with noReleaseDate := st.skipped.noReleaseDate + 1 } }
    | .invalidReleaseDate =>
      { st with skipped :=
          { st.skipped with invalidReleaseDate := st.skipped.invalidReleaseDate + 1 } }
    | .unreleasedFuture =>
      { st with skipped :=
          { st.skipped with unreleasedFuture := st.skipped.unreleasedFuture + 1 } }
    | .rumoredPlanned =>
      { st with skipped :=
          { st.skipped with rumoredPlanned := st.skipped.rumoredPlanned + 1 } }
    | .eligible =>
      if dry_run then
        { st with
          count := st.count + 1
          events := st.events ++ [.logMissingRequest m.title m.id cname] }
      else
        let st := { st with events := st.events ++ [.checkRequested m.id] }
        if env.jsRequested m.id then st
        else
          let st := { st with events := st.events ++ [.requestMovie m.id] }
          if env.jsRequestOk m.id then
            { st with
              count := st.count + 1
              events := st.events ++ [.logMissingRequest m.title m.id cname] }
          else st

/-- `process_missing` with a configured Jellyseerr client: iterate the
collections and their missing movies, starting from zeroed counters, the
given cache, and an empty trace. -/
def process_missing (env : MissingEnv) (dry_run : Bool) (cache0 : TmdbCache)
    (collections : List (String × CollectionDescriptor)) : PMState :=
  collections.foldl
    (fun st entry =>
      entry.2.missing_movies.foldl
        (fun st m => processMissingMovie env dry_run entry.2.name m st)
        st)
    ⟨0, SkipStats.init, 0, cache0, []⟩

/-- A reconciler environment whose connectors never answer, used to
instantiate the dry-run theorem. -/
def pmEnv : MissingEnv :=
  ⟨true, false, 2024, fun _ => none, fun _ => none, fun _ => false, fun _ => false⟩

/-- The cached payload of movie 77: released in 2010. -/
def pmPayload : TmdbMovie :=
  ⟨some 77, some "T", some "2010-05-05", some "Released", none, none⟩

/-- A cache already holding movie 77's metadata. -/
def pmCache : TmdbCache :=
  { movie := [("77", pmPayload)], collection := [] }

/-- A fresh reconciler state over `pmCache`. -/
def pmState : PMState := ⟨0, SkipStats.init, 0, pmCache, []⟩

/-! ## Grouping reconciliation (`apply_collections`)

The media-server and poster interactions are modelled as an event trace of
connector-method invocations (`find_collection`, the add-items POST,
`create_collection`, `get_poster`, `upload_image`), with oracles for the
server's answers. The dry-run flag suppresses the HTTP POST inside
`create_collection` (which then returns no id), exactly as `Jellyfin.post`
does. -/

/-- Connector-method invocations of one `apply_collections` run. -/
inductive JfEvent where
  | findCall (name : String)
  | updateItems (collectionId : String) (ids : List String)
  | createCall (name : String) (ids : List String)
  | posterFetch (cid : String)
  | uploadImage (itemId : String)
  deriving Repr, DecidableEq

/-- Server/oracle environment of `apply_collections`: the result of
`find_collection` by name (the user id is fixed per run), the id a real
create POST returns, the primary-image check, the poster bytes by
collection id (bytes as an opaque string), the dry-run flag, and the
`skip_poster_if_exists` parameter (defaulted to `true` by the caller). -/
structure ApplyEnv where
  findResp : String → Option String
  createResp : String → List String → Option String
  hasPrimary : String → Bool
  posterResp : String → Option String
  dryRun : Bool
  skipPosterIfExists : Bool

/-- The poster tail of one loop iteration: skip when a primary image
exists (and skipping is enabled), otherwise fetch poster bytes for the
TMDb collection id and upload them when present. -/
def posterEvents (env : ApplyEnv) (cid jfId : String) : List JfEvent :=
  if env.skipPosterIfExists && env.hasPrimary jfId then []
  else
    match env.posterResp cid with
    | none => [.posterFetch cid]
    | some _ => [.posterFetch cid, .uploadImage jfId]

/-- One iteration of `apply_collections` for entry `(cid, data)`: look the
display name up; on a hit, POST the ids into the existing grouping and
proceed to the poster phase; on a miss, `create_collection(name, ids)` —
which returns no id without any POST when `ids` is empty, and returns no
id in dry-run mode because its POST is suppressed — and proceed to the
poster phase only when an id came back. -/
def applyOneCollection (env : ApplyEnv) (entry : String × CollectionDescriptor) :
    List JfEvent :=
  match env.findResp entry.2.name with
  | some existingId =>
    [.findCall entry.2.name, .updateItems existingId entry.2.ids] ++
      posterEvents env entry.1 existingId
  | none =>
    if entry.2.ids = [] then [.findCall entry.2.name]
    else if env.dryRun then
      [.findCall entry.2.name, .createCall entry.2.name entry.2.ids]
    else
      match env.createResp entry.2.name entry.2.ids with
      | none => [.findCall entry.2.name, .createCall entry.2.name entry.2.ids]
      | some jfId =>
        [.findCall entry.2.name, .createCall entry.2.name entry.2.ids] ++
          posterEvents env entry.1 jfId

/-- `apply_collections`: iterate the resolved collections in order,
accumulating the trace. -/
def apply_collections (env : ApplyEnv) (colls : List (String × CollectionDescriptor)) :
    List JfEvent :=
  colls.foldl (fun acc e => acc ++ applyOneCollection env e) []

/-- The name of a find-grouping call, if the event is one. -/
def findCallName : JfEvent → Option String
  | .findCall n => some n
  | _ => none

/-- The characters §4.7 of the spec says are stripped from grouping names. -/
def specBadChars : List Char := [':', '<', '>', '"', '/', '\\', '|', '?', '*']

/-- Whitespace-split of a character list (nonempty runs between
whitespace). -/
def splitWsGo : List Char → List Char → List (List Char)
  | [], cur => if cur = [] then [] else [cur]
  | c :: rest, cur =>
    if c.isWhitespace then
      if cur = [] then splitWsGo rest []
      else cur :: splitWsGo rest []
    else splitWsGo rest (cur ++ [c])

/-- The name sanitization the spec describes (it has no counterpart in the
source): strip the illegal characters, then collapse whitespace runs to
single spaces. Defined from the spec's words, for comparison against the
names the code actually sends. -/
def specSanitizeName (s : String) : String :=
  let filtered := s.toList.filter (fun c => decide (c ∉ specBadChars))
  String.intercalate " " ((splitWsGo filtered []).map (fun w => ⟨w⟩))

/-- Environment for the sanitization counterexample: nothing exists on the
server and creation fails, so the trace is just the two name-bearing
calls. -/
def rawNameEnv : ApplyEnv :=
  ⟨fun _ => none, fun _ _ => none, fun _ => false, fun _ => none, false, true⟩

/-- A resolved collection whose display name contains a colon. -/
def rawNameColls : List (String × CollectionDescriptor) :=
  [("3", ⟨"A: B", ["x", "y"], some 3, [], [], []⟩)]

/-! ## End-of-run summary call (`main` → `Display.summary`)

Python binds a keyword call successfully only when every keyword names a
declared parameter (there is no `**kwargs` on `summary`) and every
parameter without a default is bound. The parameter list is taken from the
`def summary(self, ...)` signature, the keyword list from the call in
`main`. -/

/-- The parameters of `Display.summary`, after `self`; none has a
default. -/
def display_summary_params : List String :=
  ["movies_scanned", "collections_found", "missing_detected", "log_file_path"]

/-- The keywords `main` passes to `display.summary(...)`. -/
def main_summary_call_kwargs : List String :=
  ["movies_scanned", "collections_found", "missing_detected", "log_file_path",
   "skipped_stats"]

/-- Whether a Python keyword-only call binds: every keyword is a declared
parameter and every default-less parameter receives a value. -/
def pyKwargsCallOk (params kwargs : List String) : Bool :=
  kwargs.all (fun k => params.contains k) &&
    params.all (fun p => kwargs.contains p)

end AutoCollections

namespace AutoCollections

/-! ## Theorems -/

/-- A fold preserves a predicate when every element the step adds satisfies
it. -/
theorem foldl_preserve {α β : Type} (P : β → Prop) (step : List β → α → List β)
    (h : ∀ r x y, y ∈ step r x → y ∈ r ∨ P y) :
    ∀ (l : List α) (init : List β), (∀ z ∈ init, P z) →
      ∀ y ∈ List.foldl step init l, P y := by
  intro l
  induction l with
  | nil => exact fun init hi y hy => hi y hy
  | cons x xs ih =>
    intro init hi y hy
    simp only [List.foldl_cons] at hy
    refine ih (step init x) (fun z hz => ?_) y hy
    rcases h init x z hz with h1 | h2
    · exact hi z h1
    · exact h2

/-- C1: under both resolution strategies, every emitted collection
descriptor carries at least `MIN_MOVIES = 2` locally present ids. -/
theorem emitted_descriptor_has_min_two_ids :
    (∀ meta tm cid d, (cid, d) ∈ build_collections_offline meta tm →
      d.ids.length ≥ 2) ∧
    (∀ movies tm mf cf cid d, (cid, d) ∈ build_collections_online movies tm mf cf →
      d.ids.length ≥ 2) := by
  constructor
  · intro meta tm cid d hmem
    unfold build_collections_offline at hmem
    refine foldl_preserve (fun p => p.2.ids.length ≥ 2) _ ?_ meta [] (by simp)
      (cid, d) hmem
    intro r e y hy
    dsimp only at hy
    split at hy
    · rw [List.mem_append] at hy
      rcases hy with h1 | h2
      · exact Or.inl h1
      · simp only [List.mem_singleton] at h2
        subst h2
        right
        assumption
    · exact Or.inl hy
  · intro movies tm mf cf cid d hmem
    unfold build_collections_online onlinePhase2 at hmem
    refine foldl_preserve (fun p => p.2.ids.length ≥ 2) _ ?_ _ [] (by simp)
      (cid, d) hmem
    intro r e y hy
    dsimp only at hy
    split at hy
    · exact Or.inl hy
    · split at hy
      · rw [List.mem_append] at hy
        rcases hy with h1 | h2
        · exact Or.inl h1
        · simp only [List.mem_singleton] at h2
          subst h2
          right
          assumption
      · exact Or.inl hy

/-- C1 witness: the invariant instantiated on a concrete snapshot run. -/
theorem emitted_descriptor_has_min_two_ids_witness :
    sampleDesc.ids.length ≥ 2 :=
  emitted_descriptor_has_min_two_ids.1 sampleMeta sampleMap "1" sampleDesc
    (by decide)

/-- C10: the threshold counts local library copies, not distinct canonical
members: a library holding two copies of external title 1 yields the
identity map `1 ↦ [j1, j2]`, and a collection whose single canonical member
is title 1 is emitted by both resolvers with both copies as its ids. -/
theorem threshold_counts_local_copies :
    build_tmdb_mapping dupMovies = [(1, ["j1", "j2"])] ∧
    build_collections_offline dupMeta (build_tmdb_mapping dupMovies) =
      [("9", dupDesc)] ∧
    build_collections_online dupMovies (build_tmdb_mapping dupMovies)
      dupMovieFetch dupCollFetch = [("9", dupDesc)] ∧
    dupDesc.ids.length = 2 ∧ dupDesc.all_tmdb_ids.length = 1 := by
  refine ⟨by decide, by decide, by decide, by decide, by decide⟩

/-- C3: the code contradicts the spec's fatal-401 contract. The loop body
does raise `RuntimeError("TMDb API key invalid")` on a 401 (first
conjunct, showing the abort intent), but that raise sits inside the same
`try` whose `except Exception` handler catches it, so a provider answering
401 on every attempt is retried on all 3 attempts (sleeping 1 each) and the
routine returns absent instead of propagating (second conjunct). -/
theorem http401_is_swallowed_and_retried :
    attemptBody (TmdbResp.code401 : TmdbResp Unit) =
      .raised "TMDb API key invalid" ∧
    tmdbRequest false (fun _ => (TmdbResp.code401 : TmdbResp Unit)) =
      (none, [1, 1, 1]) := by
  exact ⟨by decide, by decide⟩

/-- C5 counterexample: a request answered 429 on every attempt exhausts the
3-attempt budget by those responses alone — after three 429 answers (each
sleeping the default 3) the routine gives up and returns absent. -/
theorem only429_exhausts_budget :
    tmdbRequest false (fun _ => (TmdbResp.code429 none : TmdbResp Unit)) =
      (none, [3, 3, 3]) := by decide

/-- A 429 answer on an attempt makes the loop sleep `retrySleep` of its
header and move to the next attempt, whether or not the header parses. -/
theorem tmdbRequestLoop_429_step {α : Type} (resp : Nat → TmdbResp α)
    (a : Nat) (rest : List Nat) (sleeps : List Int) (h : Option String)
    (e : resp a = .code429 h) :
    tmdbRequestLoop resp (a :: rest) sleeps =
      tmdbRequestLoop resp rest (sleeps ++ [retrySleep h]) := by
  cases hp : pyInt (h.getD "3") with
  | none =>
    have hr : retrySleep h = 1 := by simp [retrySleep, hp]
    rw [hr]
    conv_lhs => unfold tmdbRequestLoop
    simp only [e, attemptBody, hp]
  | some n =>
    have hr : retrySleep h = n := by simp [retrySleep, hp]
    rw [hr]
    conv_lhs => unfold tmdbRequestLoop
    simp only [e, attemptBody, hp]

/-- The attempt loop only consults the oracle at the attempt numbers it
traverses. -/
theorem tmdbRequestLoop_congr {α : Type} (resp resp' : Nat → TmdbResp α) :
    ∀ (as : List Nat) (sleeps : List Int), (∀ a ∈ as, resp a = resp' a) →
      tmdbRequestLoop resp as sleeps = tmdbRequestLoop resp' as sleeps := by
  intro as
  induction as with
  | nil => intro sleeps _; rfl
  | cons a rest ih =>
    intro sleeps h
    unfold tmdbRequestLoop
    rw [h a (by simp)]
    cases attemptBody (resp' a) with
    | done d => rfl
    | retryAfterSleep n => exact ih _ (fun b hb => h b (by simp [hb]))
    | raised m => exact ih _ (fun b hb => h b (by simp [hb]))

/-- C5 as amended: the retry loop permits up to 3 attempts (only the
responses to attempts 1..3 are ever consulted); a 429 answer sleeps the
server-specified delay (default 3 when the header is absent) and retries,
but consumes an attempt like any other failure: three consecutive 429
answers exhaust the budget and the request returns absent. -/
theorem tmdb429_consumes_attempt_budget :
    (∀ (α : Type) (resp : Nat → TmdbResp α) h1 h2 h3,
      resp 1 = .code429 h1 → resp 2 = .code429 h2 → resp 3 = .code429 h3 →
      tmdbRequest false resp =
        (none, [retrySleep h1, retrySleep h2, retrySleep h3])) ∧
    retrySleep none = 3 ∧
    (∀ (α : Type) (resp resp' : Nat → TmdbResp α),
      (∀ i, 1 ≤ i → i ≤ 3 → resp i = resp' i) →
      tmdbRequest false resp = tmdbRequest false resp') := by
  refine ⟨?_, by decide, ?_⟩
  · intro α resp h1 h2 h3 e1 e2 e3
    unfold tmdbRequest
    rw [if_neg (by simp)]
    rw [tmdbRequestLoop_429_step resp 1 _ _ h1 e1,
      tmdbRequestLoop_429_step resp 2 _ _ h2 e2,
      tmdbRequestLoop_429_step resp 3 _ _ h3 e3]
    simp [tmdbRequestLoop]
  · intro α resp resp' hag
    unfold tmdbRequest
    rw [if_neg (by simp)]
    refine tmdbRequestLoop_congr resp resp' [1, 2, 3] [] (fun a ha => ?_)
    simp only [List.mem_cons, List.not_mem_nil, or_false] at ha
    rcases ha with rfl | rfl | rfl
    · exact hag 1 (by decide) (by decide)
    · exact hag 2 (by decide) (by decide)
    · exact hag 3 (by decide) (by decide)

/-- C5 amended-claim witness: three 429 answers carrying `Retry-After: 7`
sleep 7 each and exhaust the budget. -/
theorem tmdb429_consumes_attempt_budget_witness :
    tmdbRequest false (fun _ => (TmdbResp.code429 (some "7") : TmdbResp Unit)) =
      (none, [7, 7, 7]) := by
  have h := tmdb429_consumes_attempt_budget.1 Unit
    (fun _ => TmdbResp.code429 (some "7")) (some "7") (some "7") (some "7")
    rfl rfl rfl
  rw [h]
  decide

/-- C6 counterexample: in offline mode a fetch is not absent for every
input — `get` consults the cache before the offline short-circuit, so a
movie-path fetch whose id is cached returns the cached payload. -/
theorem offline_cache_hit_returns_payload :
    (tmdbGet true oneMovieCache (fun _ => .netExc) (fun _ => .netExc)
        (fun _ => (.netExc : TmdbResp Unit)) "/movie/5").1 =
      some (.movie ⟨some 5, some "T", none, none, none, none⟩) ∧
    (tmdbGet true oneMovieCache (fun _ => .netExc) (fun _ => .netExc)
        (fun _ => (.netExc : TmdbResp Unit)) "/movie/5").1 ≠ none := by
  exact ⟨by decide, by decide⟩

/-- C6 as amended: in offline mode `_request` returns absent immediately
for every input, so every fetch of the connector performs no remote call
and no cache write; `get` returns exactly the cached entry on a movie or
collection path (absent on a miss) and absent on any other path. -/
theorem offline_fetch_is_cache_readonly :
    (∀ (α : Type) (resp : Nat → TmdbResp α), tmdbRequest true resp = (none, [])) ∧
    (∀ (ω : Type) (cache : TmdbCache) (mr : Nat → TmdbResp RawMovie)
        (cr : Nat → TmdbResp RawCollection) (oresp : Nat → TmdbResp ω)
        (path : String),
      (tmdbGet true cache mr cr oresp path).2 = cache ∧
      (tmdbGet true cache mr cr oresp path).1 =
        (if strStartsWith path "/movie/" then
          (cache.getMovie (lastSlashSeg path)).map GetResult.movie
        else if strStartsWith path "/collection/" then
          (cache.getCollection (lastSlashSeg path)).map GetResult.collection
        else none)) := by
  constructor
  · intro α resp; rfl
  · intro ω cache mr cr oresp path
    unfold tmdbGet
    split_ifs with h1 h2
    · cases hm : cache.getMovie (lastSlashSeg path) with
      | some c => simp [hm]
      | none => simp [hm, tmdbRequest]
    · cases hm : cache.getCollection (lastSlashSeg path) with
      | some c => simp [hm]
      | none => simp [hm, tmdbRequest]
    · simp [tmdbRequest]

/-- C9: `prune_movies` removes exactly the movie entries whose id is not
among the (stringified) valid ids — the movie partition's key set becomes
its old key set intersected with the valid ids, entries keep their values —
and the collection partition is untouched. -/
theorem prune_movies_exact :
    ∀ (μ γ : Type) (c : Cache μ γ) (valid : List Int),
      ((c.pruneMovies valid).movie.map Prod.fst).toFinset =
        (c.movie.map Prod.fst).toFinset ∩ (valid.map toString).toFinset ∧
      (∀ k v, (k, v) ∈ (c.pruneMovies valid).movie ↔
        ((k, v) ∈ c.movie ∧ k ∈ valid.map toString)) ∧
      (c.pruneMovies valid).collection = c.collection := by
  intro μ γ c valid
  refine ⟨?_, ?_, rfl⟩
  · ext x
    simp only [Cache.pruneMovies, List.mem_toFinset, List.mem_map,
      List.mem_filter, Finset.mem_inter, decide_eq_true_eq]
    constructor
    · rintro ⟨⟨k, v⟩, ⟨hm, hv⟩, rfl⟩
      exact ⟨⟨(k, v), hm, rfl⟩, hv⟩
    · rintro ⟨⟨⟨k, v⟩, hm, rfl⟩, hv⟩
      exact ⟨(k, v), ⟨hm, hv⟩, rfl⟩
  · intro k v
    simp [Cache.pruneMovies, List.mem_filter]

/-- C7 counterexample: the first check fires on Python falsiness, not only
on `None` — an empty-string release date (whose leading 4 characters do
fail integer parse) is classified "No release date", not
"Invalid release date" as the claim's ordered rules prescribe. -/
theorem empty_release_date_not_invalid :
    classifyMissing (some "") (some "Released") 2024 =
      MissingClass.noReleaseDate ∧
    pyInt "" = none ∧
    MissingClass.noReleaseDate ≠ MissingClass.invalidReleaseDate := by
  exact ⟨by decide, by decide, by decide⟩

/-- C7 as amended: classification is a total function of
`(releaseDate, status, currentYear)` with the checks in this order: an
absent or empty release date → "No release date"; a nonempty date whose
leading 4 characters fail integer parse → "Invalid release date"; a parsed
year greater than the current year → "Unreleased (future year)"; status
"Rumored" or "Planned" → "Rumored/Planned"; any other status (such as
"Released") with a valid non-future date → eligible. -/
theorem classify_missing_cases :
    ∀ (s : String) (st : Option String) (y n : Int),
      (classifyMissing none st y = .noReleaseDate) ∧
      (classifyMissing (some "") st y = .noReleaseDate) ∧
      (s ≠ "" → pyInt ⟨s.toList.take 4⟩ = none →
        classifyMissing (some s) st y = .invalidReleaseDate) ∧
      (s ≠ "" → pyInt ⟨s.toList.take 4⟩ = some n → n > y →
        classifyMissing (some s) st y = .unreleasedFuture) ∧
      (s ≠ "" → pyInt ⟨s.toList.take 4⟩ = some n → n ≤ y →
        (st = some "Rumored" ∨ st = some "Planned") →
        classifyMissing (some s) st y = .rumoredPlanned) ∧
      (s ≠ "" → pyInt ⟨s.toList.take 4⟩ = some n → n ≤ y →
        st ≠ some "Rumored" → st ≠ some "Planned" →
        classifyMissing (some s) st y = .eligible) := by
  intro s st y n
  have htru : ∀ (t : String), t ≠ "" → strTruthy (some t) = true := by
    intro t ht; simp [strTruthy, ht]
  refine ⟨rfl, by simp [classifyMissing, strTruthy], ?_, ?_, ?_, ?_⟩
  · intro hne hp
    have hp' : pyInt ⟨s.data.take 4⟩ = none := hp
    simp [classifyMissing, htru s hne, hp']
  · intro hne hp hy
    have hp' : pyInt ⟨s.data.take 4⟩ = some n := hp
    simp [classifyMissing, htru s hne, hp', hy]
  · intro hne hp hy hst
    have hp' : pyInt ⟨s.data.take 4⟩ = some n := hp
    simp [classifyMissing, htru s hne, hp', not_lt.mpr hy, hst]
  · intro hne hp hy h1 h2
    have hp' : pyInt ⟨s.data.take 4⟩ = some n := hp
    simp [classifyMissing, htru s hne, hp', not_lt.mpr hy, h1, h2]

/-- C7 amended-claim witness: a valid past date with status "Released" is
eligible. -/
theorem classify_missing_cases_witness :
    classifyMissing (some "2010-05-05") (some "Released") 2024 =
      MissingClass.eligible :=
  (classify_missing_cases "2010-05-05" (some "Released") 2024 2010).2.2.2.2.2
    (by decide) (by decide) (by decide) (by decide) (by decide)

/-- Events a metadata-resolution step may append: fetch attempts only. -/
def fetchOnly (es : List PMEvent) : Prop :=
  ∀ e ∈ es, (∃ i, e = PMEvent.tmdbApiFetch i) ∨ (∃ i, e = PMEvent.fallbackFetch i)

/-- The TMDb attempt only appends fetch events to the trace. -/
theorem apiAttempt_events (env : MissingEnv) (m : MovieRef) (st : PMState) :
    ∃ es, (apiAttempt env m st).2.events = st.events ++ es ∧ fetchOnly es := by
  unfold apiAttempt
  split
  · cases h : env.tmdbFetch m.id with
    | some d =>
      exact ⟨[.tmdbApiFetch m.id], by simp [h], by simp [fetchOnly]⟩
    | none =>
      exact ⟨[.tmdbApiFetch m.id], by simp [h], by simp [fetchOnly]⟩
  · exact ⟨[], by simp, by simp [fetchOnly]⟩

/-- The fallback attempt only appends fetch events to the trace. -/
theorem fallbackAttempt_events (env : MissingEnv) (m : MovieRef) (st : PMState) :
    ∃ es, (fallbackAttempt env m st).2.events = st.events ++ es ∧ fetchOnly es := by
  unfold fallbackAttempt
  cases h : env.jsFallback m.id with
  | some d =>
    exact ⟨[.fallbackFetch m.id], by simp [h], by simp [fetchOnly]⟩
  | none =>
    exact ⟨[.fallbackFetch m.id], by simp [h], by simp [fetchOnly]⟩

/-- The whole resolution chain only appends fetch events to the trace. -/
theorem resolveDetails_events (env : MissingEnv) (m : MovieRef) (st : PMState) :
    ∃ es, (resolveDetails env m st).2.events = st.events ++ es ∧ fetchOnly es := by
  unfold resolveDetails
  cases hc : st.cache.getMovie (toString m.id) with
  | some d => exact ⟨[], by simp, by simp [fetchOnly]⟩
  | none =>
    obtain ⟨es1, he1, hf1⟩ := apiAttempt_events env m st
    cases ha : apiAttempt env m st with
    | mk o st2 =>
      cases o with
      | some d => exact ⟨es1, by rw [ha] at he1; simpa using he1, hf1⟩
      | none =>
        obtain ⟨es2, he2, hf2⟩ := fallbackAttempt_events env m st2
        refine ⟨es1 ++ es2, ?_, ?_⟩
        · rw [ha] at he1
          simp only at he1
          rw [he2, he1, List.append_assoc]
        · intro e he
          rcases List.mem_append.mp he with h1 | h2
          · exact hf1 e h1
          · exact hf2 e h2

/-- In dry-run mode one reconciliation step appends no `requestMovie`
event. -/
theorem processMissingMovie_dryrun_noReq (env : MissingEnv) (cname : String)
    (m : MovieRef) (st : PMState) (i : Int)
    (h : PMEvent.requestMovie i ∉ st.events) :
    PMEvent.requestMovie i ∉ (processMissingMovie env true cname m st).events := by
  obtain ⟨⟨o, st'⟩, hr⟩ :
      ∃ p, resolveDetails env m { st with totalMissing := st.totalMissing + 1 } = p :=
    ⟨_, rfl⟩
  obtain ⟨es, he, hf⟩ :=
    resolveDetails_events env m { st with totalMissing := st.totalMissing + 1 }
  rw [hr] at he
  simp only at he
  have hst' : PMEvent.requestMovie i ∉ st'.events := by
    rw [he]
    intro hmem
    rcases List.mem_append.mp hmem with h1 | h2
    · exact h h1
    · rcases hf _ h2 with ⟨j, hj⟩ | ⟨j, hj⟩ <;> simp at hj
  unfold processMissingMovie
  rw [hr]
  cases o with
  | none => simpa using hst'
  | some d =>
    cases hcl : classifyMissing d.release_date d.status env.currentYear <;>
      simp [hcl, hst']

/-- C8: in dry-run mode the request connector's submit operation is never
invoked — the full-run trace contains no `requestMovie` event (first
conjunct) — and each missing item whose resolved metadata classifies
eligible gets a would-request record and a count increment (second
conjunct). -/
theorem dry_run_never_submits :
    (∀ env cache0 colls i,
      PMEvent.requestMovie i ∉ (process_missing env true cache0 colls).events) ∧
    (∀ env cname m st d st',
      resolveDetails env m { st with totalMissing := st.totalMissing + 1 } =
        (some d, st') →
      classifyMissing d.release_date d.status env.currentYear =
        MissingClass.eligible →
      processMissingMovie env true cname m st =
        { st' with
          count := st'.count + 1
          events := st'.events ++ [.logMissingRequest m.title m.id cname] }) := by
  constructor
  · intro env cache0 colls i
    have hfold : ∀ (l : List (String × CollectionDescriptor)) (st : PMState),
        PMEvent.requestMovie i ∉ st.events →
        PMEvent.requestMovie i ∉ (l.foldl
          (fun st entry => entry.2.missing_movies.foldl
            (fun st m => processMissingMovie env true entry.2.name m st) st)
          st).events := by
      intro l
      induction l with
      | nil => exact fun st h => h
      | cons entry rest ih =>
        intro st h
        refine ih _ ?_
        have hinner : ∀ (ms : List MovieRef) (st : PMState),
            PMEvent.requestMovie i ∉ st.events →
            PMEvent.requestMovie i ∉ (ms.foldl
              (fun st m => processMissingMovie env true entry.2.name m st)
              st).events := by
          intro ms
          induction ms with
          | nil => exact fun st h => h
          | cons m mrest ihm =>
            intro st h
            exact ihm _ (processMissingMovie_dryrun_noReq env _ m st i h)
        exact hinner entry.2.missing_movies st h
    exact hfold colls ⟨0, SkipStats.init, 0, cache0, []⟩ (by simp)
  · intro env cname m st d st' hres hclass
    unfold processMissingMovie
    rw [hres]
    simp only [hclass, if_true]

/-- C8 witness: one dry-run step over a cache-resolved, eligible missing
item records the would-request and bumps the count, with no submission in
the trace. -/
theorem dry_run_never_submits_witness :
    processMissingMovie pmEnv true "Col" ⟨77, "T"⟩ pmState =
      ⟨1, SkipStats.init, 1, pmCache, [.logMissingRequest "T" 77 "Col"]⟩ := by
  have h := dry_run_never_submits.2 pmEnv "Col" ⟨77, "T"⟩ pmState pmPayload
    ⟨0, SkipStats.init, 1, pmCache, []⟩ (by decide) (by decide)
  rw [h]
  rfl

/-- C2: the end-of-run summary call in `main` does not bind —
`Display.summary` has no `skipped_stats` parameter (and no `**kwargs`),
while `main` passes one, so the call raises `TypeError` instead of
reporting the skip statistics. -/
theorem summary_call_rejects_skipped_stats :
    pyKwargsCallOk display_summary_params main_summary_call_kwargs = false ∧
    main_summary_call_kwargs.contains "skipped_stats" = true ∧
    display_summary_params.contains "skipped_stats" = false := by
  exact ⟨by decide, by decide, by decide⟩

/-- Folding event-appends from the empty accumulator factors through any
accumulator. -/
theorem foldl_append_acc {α β : Type} (f : α → List β) :
    ∀ (l : List α) (acc : List β),
      l.foldl (fun a x => a ++ f x) acc =
        acc ++ l.foldl (fun a x => a ++ f x) [] := by
  intro l
  induction l with
  | nil => simp
  | cons x xs ih =>
    intro acc
    simp only [List.foldl_cons, List.nil_append]
    rw [ih (acc ++ f x), ih (f x), List.append_assoc]

/-- The poster phase makes no name-bearing (find or create) calls. -/
theorem posterEvents_no_name_calls (env : ApplyEnv) (cid jfId : String) :
    (posterEvents env cid jfId).filterMap findCallName = [] ∧
    (∀ n ids, JfEvent.createCall n ids ∉ posterEvents env cid jfId) := by
  unfold posterEvents
  split
  · simp
  · cases env.posterResp cid <;> simp [findCallName]

/-- One iteration performs exactly one lookup, under the entry's verbatim
display name. -/
theorem applyOneCollection_findNames (env : ApplyEnv)
    (e : String × CollectionDescriptor) :
    (applyOneCollection env e).filterMap findCallName = [e.2.name] := by
  unfold applyOneCollection
  cases hf : env.findResp e.2.name with
  | some existingId =>
    simp [List.filterMap_append, findCallName,
      (posterEvents_no_name_calls env e.1 existingId).1]
  | none =>
    by_cases hids : e.2.ids = []
    · simp [hids, findCallName]
    · by_cases hdry : env.dryRun = true
      · simp [hids, hdry, findCallName]
      · simp only [hids, if_neg, Bool.not_eq_true] at hdry ⊢
        rw [if_neg (by simp [hids]), if_neg (by simp [hdry])]
        cases hc : env.createResp e.2.name e.2.ids with
        | none => simp [findCallName]
        | some jfId =>
          simp [List.filterMap_append, findCallName,
            (posterEvents_no_name_calls env e.1 jfId).1]

/-- One iteration's create call, when made, carries the entry's verbatim
display name and ids. -/
theorem applyOneCollection_createCall (env : ApplyEnv)
    (e : String × CollectionDescriptor) (n : String) (ids : List String)
    (h : JfEvent.createCall n ids ∈ applyOneCollection env e) :
    n = e.2.name ∧ ids = e.2.ids := by
  unfold applyOneCollection at h
  cases hf : env.findResp e.2.name with
  | some existingId =>
    rw [hf] at h
    simp only [List.mem_append, List.mem_cons, List.not_mem_nil] at h
    rcases h with (h | h | h) | h
    · exact absurd h (by simp)
    · exact absurd h (by simp)
    · exact h.elim
    · exact absurd h ((posterEvents_no_name_calls env e.1 existingId).2 n ids)
  | none =>
    rw [hf] at h
    by_cases hids : e.2.ids = []
    · rw [if_pos hids] at h
      simp at h
    · rw [if_neg hids] at h
      by_cases hdry : env.dryRun = true
      · rw [if_pos hdry] at h
        simp only [List.mem_cons, List.not_mem_nil, or_false] at h
        rcases h with h | h
        · exact absurd h (by simp)
        · obtain ⟨h1, h2⟩ := JfEvent.createCall.inj h
          exact ⟨h1, h2⟩
      · rw [if_neg hdry] at h
        cases hc : env.createResp e.2.name e.2.ids with
        | none =>
          rw [hc] at h
          simp only [List.mem_cons, List.not_mem_nil, or_false] at h
          rcases h with h | h
          · exact absurd h (by simp)
          · obtain ⟨h1, h2⟩ := JfEvent.createCall.inj h
            exact ⟨h1, h2⟩
        | some jfId =>
          rw [hc] at h
          simp only [List.mem_append, List.mem_cons, List.not_mem_nil] at h
          rcases h with (h | h | h) | h
          · exact absurd h (by simp)
          · obtain ⟨h1, h2⟩ := JfEvent.createCall.inj h
            exact ⟨h1, h2⟩
          · exact h.elim
          · exact absurd h ((posterEvents_no_name_calls env e.1 jfId).2 n ids)

/-- C4 counterexample: no sanitization happens — for a display name
containing a colon, both the lookup and the creation call carry the raw
name `"A: B"`, which differs from the sanitized form `"A B"` the spec
prescribes. -/
theorem colon_name_sent_unsanitized :
    apply_collections rawNameEnv rawNameColls =
      [.findCall "A: B", .createCall "A: B" ["x", "y"]] ∧
    specSanitizeName "A: B" = "A B" ∧
    ("A: B" : String) ≠ "A B" := by
  exact ⟨by decide, by decide, by decide⟩

/-- C4 as amended: the grouping name used in every lookup and creation
call is the descriptor's display name verbatim — the lookup sequence is
exactly the display names in order, and every creation call carries the
display name and ids of its entry; no character stripping or whitespace
collapsing is applied. -/
theorem apply_collections_uses_raw_names :
    ∀ (env : ApplyEnv) (colls : List (String × CollectionDescriptor)),
      (apply_collections env colls).filterMap findCallName =
        colls.map (fun p => p.2.name) ∧
      (∀ n ids, JfEvent.createCall n ids ∈ apply_collections env colls →
        ∃ p ∈ colls, n = p.2.name ∧ ids = p.2.ids) := by
  intro env colls
  induction colls with
  | nil => exact ⟨rfl, by simp [apply_collections]⟩
  | cons e rest ih =>
    have hsplit : apply_collections env (e :: rest) =
        applyOneCollection env e ++ apply_collections env rest := by
      unfold apply_collections
      simp only [List.foldl_cons, List.nil_append]
      exact foldl_append_acc _ rest (applyOneCollection env e)
    constructor
    · rw [hsplit, List.filterMap_append, applyOneCollection_findNames, ih.1,
        List.map_cons]
      rfl
    · intro n ids hmem
      rw [hsplit, List.mem_append] at hmem
      rcases hmem with h | h
      · obtain ⟨h1, h2⟩ := applyOneCollection_createCall env e n ids h
        exact ⟨e, by simp, h1, h2⟩
      · obtain ⟨p, hp, h1, h2⟩ := ih.2 n ids h
        exact ⟨p, by simp [hp], h1, h2⟩

/-- C4 amended-claim witness: on the colon-named collection the single
lookup uses the raw name and the creation call carries the entry's name
and ids. -/
theorem apply_collections_uses_raw_names_witness :
    (apply_collections rawNameEnv rawNameColls).filterMap findCallName =
      ["A: B"] ∧
    (∃ p ∈ rawNameColls, "A: B" = p.2.name ∧ ["x", "y"] = p.2.ids) := by
  have h := apply_collections_uses_raw_names rawNameEnv rawNameColls
  constructor
  · rw [h.1]; decide
  · exact h.2 "A: B" ["x", "y"] (by decide)

end AutoCollections
